import Mathlib

/-!
Bell schedule controller (`src/mcu.cpp`).

A shallow embedding of the trigger engine of the ESP32 school-bell firmware:
the schedule scan of `loop()` with its same-minute memory, the manual lock,
the web handlers that change engine state, and the NTP-to-RTC sync.

Conventions of the embedding.

* The globals of the sketch are the fields of `State`; every function of the
  sketch that touches them becomes a function on `State`.
* Calls into the peripherals (DFPlayer, RTC, NTP client, web server) are
  recorded, in call order, as a list of `Effect`s returned next to the new
  state.  `Serial` logging is left out: it neither reads nor writes a global.
* `millis()` readings, `rtc.now()`, the request being served and the NTP
  answer are explicit arguments.
* `uint32_t` arithmetic is arithmetic modulo `2^32` on `Nat`; `int` values
  are `Int`; the casts of the source are spelled out (`castInt32`,
  `castUint16`, `castUint32`).
-/

namespace BellController

/-! ## Data model -/

/-- One row of `scheduleList` (`struct BellEvent`). -/
structure BellEvent where
  dowFrom : Nat
  dowTo : Nat
  hour : Nat
  minute : Nat
  track : Nat
  label : String
deriving DecidableEq, Repr

/-- The example timetable compiled into the sketch (`scheduleList`). -/
def scheduleList : List BellEvent :=
  [ ⟨1, 5, 8, 30, 1, "Ders Baslangic"⟩,
    ⟨1, 5, 9, 10, 2, "Teneffus"⟩,
    ⟨1, 5, 9, 20, 1, "Ders"⟩,
    ⟨1, 5, 12, 0, 3, "Istiklal Marsi"⟩,
    ⟨1, 5, 16, 0, 4, "Cikis"⟩ ]

/-- The values the accessors of an RTClib `DateTime` return: `year()`,
`month()`, `day()`, `hour()`, `minute()`, `second()` and `dayOfTheWeek()`
(0 = Sunday .. 6 = Saturday). -/
structure DateTime where
  year : Nat
  month : Nat
  day : Nat
  hour : Nat
  minute : Nat
  second : Nat
  dayOfTheWeek : Nat
deriving DecidableEq, Repr

/-- A call into a peripheral library, with the argument the sketch passes. -/
inductive Effect where
  | dfVolume (level : Int)
  | dfPlay (track : Nat)
  | dfStop
  | rtcAdjust (epoch : Nat)
  | ntpBegin
  | ntpUpdate
  | ntpForceUpdate
  | send (code : Nat) (body : String)
  | sendJson (code : Nat)
deriving DecidableEq, Repr

/-- The global variables of the sketch, together with the function-local
`static uint32_t lastTickMs` of `loop()`. -/
structure State where
  lastTriggeredYear : Int
  lastTriggeredMonth : Int
  lastTriggeredDay : Int
  lastTriggeredHour : Int
  lastTriggeredMinute : Int
  lastTriggeredTrack : Nat
  currentVolume : Int
  manualLock : Bool
  manualLockUntilMs : Nat
  lastTickMs : Nat
deriving DecidableEq, Repr

/-- The initial values of the globals. -/
def State.init : State :=
  { lastTriggeredYear := -1, lastTriggeredMonth := -1, lastTriggeredDay := -1,
    lastTriggeredHour := -1, lastTriggeredMinute := -1, lastTriggeredTrack := 0,
    currentVolume := 20, manualLock := false, manualLockUntilMs := 0,
    lastTickMs := 0 }

/-! ## Machine arithmetic -/

/-- The modulus of `uint32_t`. -/
def two32 : Nat := 4294967296

/-- `MANUAL_LOCK_MS = 3UL * 60UL * 1000UL`. -/
def MANUAL_LOCK_MS : Nat := 3 * 60 * 1000

/-- The cutoff `1700000000UL` of `syncRtcFromNtp`. -/
def NTP_EPOCH_CUTOFF : Nat := 1700000000

/-- Sum of two `uint32_t` values. -/
def add32 (a b : Nat) : Nat := (a + b) % two32

/-- Difference `a - b` of two `uint32_t` values. -/
def sub32 (a b : Nat) : Nat := (a % two32 + (two32 - b % two32)) % two32

/-- The cast `(int32_t)x` of a `uint32_t` value (two's complement). -/
def castInt32 (x : Nat) : Int :=
  if x % two32 < 2147483648 then ((x % two32 : Nat) : Int)
  else ((x % two32 : Nat) : Int) - 4294967296

/-- The cast `(uint16_t)t` of an `int`. -/
def castUint16 (t : Int) : Nat := (t % 65536).toNat

/-- The cast `(uint32_t)epoch` of an `unsigned long`. -/
def castUint32 (n : Nat) : Nat := n % two32

/-! ## Helper functions of the sketch -/

/-- `rtcDowToIsoMon1`: RTClib weekday (0 = Sunday) to ISO weekday. -/
def rtcDowToIsoMon1 (now : DateTime) : Nat :=
  let d := now.dayOfTheWeek
  if d = 0 then 7 else d

/-- `dowInRange`. -/
def dowInRange (isoDow dFrom dTo : Nat) : Bool :=
  decide (isoDow ≥ dFrom ∧ isoDow ≤ dTo)

/-- `setManualLock`, with `ms` the value `millis()` returns. -/
def setManualLock (ms : Nat) (s : State) : State :=
  { s with manualLock := true, manualLockUntilMs := add32 ms MANUAL_LOCK_MS }

/-- `updateManualLock`, with `ms` the value `millis()` returns. -/
def updateManualLock (ms : Nat) (s : State) : State :=
  if s.manualLock = true ∧ castInt32 (sub32 ms s.manualLockUntilMs) ≥ 0 then
    { s with manualLock := false }
  else s

/-- `playTrack`: set the volume, then start the track. -/
def playTrack (track : Nat) (s : State) : State × List Effect :=
  (s, [Effect.dfVolume s.currentVolume, Effect.dfPlay track])

/-- `stopPlayback`. -/
def stopPlayback (s : State) : State × List Effect :=
  (s, [Effect.dfStop])

/-- `syncRtcFromNtp`.  `wifiConnected` is `WiFi.status() == WL_CONNECTED`,
`updateOk` the result of `ntp.update()` and `epoch` the value
`ntp.getEpochTime()` returns afterwards.  Returns the `bool` result and the
peripheral calls made. -/
def syncRtcFromNtp (wifiConnected updateOk : Bool) (epoch : Nat) : Bool × List Effect :=
  if ¬ wifiConnected = true then (false, [])
  else
    let pre := [Effect.ntpBegin, Effect.ntpUpdate] ++
      (if ¬ updateOk = true then [Effect.ntpForceUpdate] else [])
    if epoch < NTP_EPOCH_CUTOFF then (false, pre)
    else (true, pre ++ [Effect.rtcAdjust (castUint32 epoch)])

/-- The time the RTC holds after a run of peripheral calls, started from
`clock`: every `rtc.adjust` overwrites it. -/
def rtcAfter (clock : Nat) : List Effect → Nat
  | [] => clock
  | Effect.rtcAdjust e :: rest => rtcAfter e rest
  | _ :: rest => rtcAfter clock rest

/-! ## Web handlers -/

/-- `handlePlay`.  `arg` is `none` when the request has no `track` argument,
otherwise the `int` that `server.arg("track").toInt()` yields; `ms` is the
`millis()` reading of `setManualLock`. -/
def handlePlay (arg : Option Int) (ms : Nat) (s : State) : State × List Effect :=
  match arg with
  | none => (s, [Effect.send 400 "Missing track"])
  | some t =>
    if t ≤ 0 ∨ t > 3000 then (s, [Effect.send 400 "Invalid track"])
    else
      let s1 := setManualLock ms s
      let r := playTrack (castUint16 t) s1
      (r.1, r.2 ++ [Effect.send 200 "OK"])

/-- `handleStop`. -/
def handleStop (s : State) : State × List Effect :=
  let r := stopPlayback s
  (r.1, r.2 ++ [Effect.send 200 "OK"])

/-- `handleVolume`.  `arg` is `none` when the request has no `v` argument,
otherwise the `int` that `server.arg("v").toInt()` yields. -/
def handleVolume (arg : Option Int) (s : State) : State × List Effect :=
  match arg with
  | none => (s, [Effect.send 400 "Missing v"])
  | some v0 =>
    let v1 := if v0 < 0 then 0 else v0
    let v2 := if v1 > 30 then 30 else v1
    let s1 := { s with currentVolume := v2 }
    (s1, [Effect.dfVolume s1.currentVolume, Effect.send 200 "OK"])

/-- The routes registered in `setup()`. -/
inductive Request where
  | root
  | status
  | play (arg : Option Int)
  | stop
  | volume (arg : Option Int)
  | schedule
deriving DecidableEq, Repr

/-- `server.handleClient()`: run the handler of the pending request, if any.
`handleRoot`, `handleStatus` and `handleSchedule` only send a response built
from read-only views of the globals. -/
def handleClient (req : Option Request) (ms : Nat) (s : State) : State × List Effect :=
  match req with
  | none => (s, [])
  | some Request.root =>
    (s, [Effect.send 200
      "Akilli Okul Zili\nGET /status\nGET /play?track=1\nGET /stop\nGET /volume?v=20\nGET /schedule\n"])
  | some Request.status => (s, [Effect.sendJson 200])
  | some (Request.play arg) => handlePlay arg ms s
  | some Request.stop => handleStop s
  | some (Request.volume arg) => handleVolume arg s
  | some Request.schedule => (s, [Effect.sendJson 200])

/-! ## The scheduling tick of `loop()` -/

/-- The same-minute test of `loop()`: the trigger memory holds the minute of
`now` and the track `track`. -/
def alreadyTriggered (now : DateTime) (track : Nat) (s : State) : Prop :=
  (now.year : Int) = s.lastTriggeredYear ∧
  (now.month : Int) = s.lastTriggeredMonth ∧
  (now.day : Int) = s.lastTriggeredDay ∧
  (now.hour : Int) = s.lastTriggeredHour ∧
  (now.minute : Int) = s.lastTriggeredMinute ∧
  track = s.lastTriggeredTrack

instance (now : DateTime) (track : Nat) (s : State) :
    Decidable (alreadyTriggered now track s) :=
  inferInstanceAs (Decidable (_ ∧ _ ∧ _ ∧ _ ∧ _ ∧ _))

/-- The assignments to the `lastTriggered*` globals after a play. -/
def remember (now : DateTime) (track : Nat) (s : State) : State :=
  { s with
    lastTriggeredYear := now.year, lastTriggeredMonth := now.month,
    lastTriggeredDay := now.day, lastTriggeredHour := now.hour,
    lastTriggeredMinute := now.minute, lastTriggeredTrack := track }

/-- The body of the `for` loop of `loop()` for one table row `e`. -/
def scheduleStep (now : DateTime) (isoDow : Nat) (e : BellEvent) (s : State) :
    State × List Effect :=
  if ¬ dowInRange isoDow e.dowFrom e.dowTo = true then (s, [])
  else if now.hour ≠ e.hour ∨ now.minute ≠ e.minute then (s, [])
  else if alreadyTriggered now e.track s then (s, [])
  else
    let r := playTrack e.track s
    (remember now e.track r.1, r.2)

/-- The `for` loop of `loop()` over the rows of the table, in order. -/
def scheduleScan (now : DateTime) (isoDow : Nat) : List BellEvent → State → State × List Effect
  | [], s => (s, [])
  | e :: rest, s =>
    let r1 := scheduleStep now isoDow e s
    let r2 := scheduleScan now isoDow rest r1.1
    (r2.1, r1.2 ++ r2.2)

/-- The part of `loop()` after the 250 ms gate: one scheduling tick, sampling
the time `now = rtc.now()`. -/
def scheduleTick (now : DateTime) (table : List BellEvent) (s : State) : State × List Effect :=
  if s.manualLock = true then (s, [])
  else
    let isoDow := rtcDowToIsoMon1 now
    if now.second ≠ 0 then (s, [])
    else scheduleScan now isoDow table s

/-- What one iteration of `loop()` reads from its environment. -/
structure LoopInput where
  request : Option Request
  msClient : Nat
  msLock : Nat
  msGate : Nat
  msStamp : Nat
  now : DateTime
deriving DecidableEq, Repr

/-- One iteration of `loop()`.  `msClient` is the `millis()` reading inside a
served `/play`, `msLock` the one of `updateManualLock`, `msGate` the one of the
250 ms test and `msStamp` the one stored in `lastTickMs`. -/
def loop (inp : LoopInput) (table : List BellEvent) (s : State) : State × List Effect :=
  let r1 := handleClient inp.request inp.msClient s
  let s2 := updateManualLock inp.msLock r1.1
  if sub32 inp.msGate s2.lastTickMs < 250 then (s2, r1.2)
  else
    let s3 := { s2 with lastTickMs := inp.msStamp }
    let r4 := scheduleTick inp.now table s3
    (r4.1, r1.2 ++ r4.2)

/-! ## Observations used by the statements -/

/-- The tracks started (`df.play`) in a run of peripheral calls, in order. -/
def playedTracks : List Effect → List Nat
  | [] => []
  | Effect.dfPlay t :: rest => t :: playedTracks rest
  | _ :: rest => playedTracks rest

/-- The trigger memory: the six `lastTriggered*` globals. -/
def triggerMemory (s : State) : Int × Int × Int × Int × Int × Nat :=
  (s.lastTriggeredYear, s.lastTriggeredMonth, s.lastTriggeredDay,
   s.lastTriggeredHour, s.lastTriggeredMinute, s.lastTriggeredTrack)

/-- Consecutive scheduling ticks that all sample the same time `now`; the
result lists the peripheral calls of each tick. -/
def scheduleTicks (now : DateTime) (table : List BellEvent) :
    Nat → State → State × List (List Effect)
  | 0, s => (s, [])
  | n + 1, s =>
    let r := scheduleTick now table s
    let rs := scheduleTicks now table n r.1
    (rs.1, r.2 :: rs.2)

/-- Consecutive iterations of `loop()`; the result lists the peripheral calls
of each iteration. -/
def runLoops (table : List BellEvent) : List LoopInput → State → State × List (List Effect)
  | [], s => (s, [])
  | inp :: rest, s =>
    let r := loop inp table s
    let rs := runLoops table rest r.1
    (rs.1, r.2 :: rs.2)

/-- The matching test in the words of the specification: the ISO weekday of
`now` (RTC weekday 0 read as 7) lies in `[dowFrom, dowTo]` and hour and minute
are equal.  `guards_iff_eventMatches` relates it to the guards of `loop()`. -/
def eventMatches (now : DateTime) (e : BellEvent) : Bool :=
  let isoDow := if now.dayOfTheWeek = 0 then 7 else now.dayOfTheWeek
  decide (e.dowFrom ≤ isoDow ∧ isoDow ≤ e.dowTo ∧ e.hour = now.hour ∧ e.minute = now.minute)

/-- The trigger memory records the minute of `now` (whatever the track). -/
def memoryInMinute (now : DateTime) (s : State) : Prop :=
  s.lastTriggeredYear = now.year ∧ s.lastTriggeredMonth = now.month ∧
  s.lastTriggeredDay = now.day ∧ s.lastTriggeredHour = now.hour ∧
  s.lastTriggeredMinute = now.minute

/-- The trigger memory still holds its initial "none" value. -/
def memoryIsNone (s : State) : Prop :=
  triggerMemory s = (-1, -1, -1, -1, -1, 0)

/-- The request makes `handlePlay` start a manual play. -/
def isManualPlay : Option Request → Bool
  | some (Request.play (some t)) => decide (¬ (t ≤ 0 ∨ t > 3000))
  | _ => false

instance (now : DateTime) (s : State) : Decidable (memoryInMinute now s) :=
  inferInstanceAs (Decidable (_ ∧ _ ∧ _ ∧ _ ∧ _))

instance (s : State) : Decidable (memoryIsNone s) :=
  inferInstanceAs (Decidable (_ = _))

/-! ## Sample inputs -/

/-- Monday 2024-01-01, 12:00:00. -/
def mondayNoon : DateTime := ⟨2024, 1, 1, 12, 0, 0, 1⟩

/-- Monday 2024-01-01, 08:30:00. -/
def mondayFirstBell : DateTime := ⟨2024, 1, 1, 8, 30, 0, 1⟩

/-- Monday 2024-01-01, 09:20:00. -/
def mondayThirdBell : DateTime := ⟨2024, 1, 1, 9, 20, 0, 1⟩

/-- Monday 2024-01-01, 12:00:01. -/
def mondayNoonPlusOne : DateTime := ⟨2024, 1, 1, 12, 0, 1, 1⟩

/-- A timetable with two rows for the same weekday range and minute, tracks 3
and 4. -/
def twoTrackTable : List BellEvent :=
  [⟨1, 5, 12, 0, 3, "Istiklal Marsi"⟩, ⟨1, 5, 12, 0, 4, "Cikis"⟩]

/-- A timetable holding the same row twice with a row for another track of the
same minute in between. -/
def duplicateRowTable : List BellEvent :=
  [⟨1, 5, 12, 0, 1, "Ders"⟩, ⟨1, 5, 12, 0, 2, "Teneffus"⟩, ⟨1, 5, 12, 0, 1, "Ders"⟩]

/-- An iteration of `loop()` with no pending request that reads `ms` at each
`millis()` call and `now` from the RTC. -/
def quietLoop (ms : Nat) (now : DateTime) : LoopInput :=
  { request := none, msClient := ms, msLock := ms, msGate := ms, msStamp := ms, now := now }

/-! ## Machine arithmetic and the manual lock -/

/-- After `setManualLock` at time `a`, the signed difference that
`updateManualLock` tests at time `a + d` is negative exactly while
`d < 180000`, for every elapsed `d` below `2^31`. -/
theorem lock_window (a d : Nat) (hd : d < 2147483648) :
    castInt32 (sub32 ((a + d) % two32) (add32 a MANUAL_LOCK_MS)) ≥ 0 ↔ 180000 ≤ d := by
  unfold castInt32 sub32 add32 two32 MANUAL_LOCK_MS
  split <;> omega

theorem setManualLock_foldl_lock (times : List Nat) (a : Nat) (s0 : State) :
    (setManualLock a (times.foldl (fun s t => setManualLock t s) s0)).manualLock = true ∧
    (setManualLock a (times.foldl (fun s t => setManualLock t s) s0)).manualLockUntilMs
      = add32 a MANUAL_LOCK_MS := by
  simp [setManualLock]

/-- C10.  The manual lock expires exactly 180000 ms after the most recent
`setManualLock`, also across the `millis()` rollover: after any sequence of
`setManualLock` calls (at the times `times`) followed by one at time `a`, the
deadline is `a + 180000` modulo `2^32` whatever came before, and
`updateManualLock` run at time `(a + d) mod 2^32`, for an elapsed time
`d < 2^31`, leaves `manualLock` true if and only if `d < 180000`. -/
theorem manual_lock_expiry_exact (s0 : State) (times : List Nat) (a d : Nat)
    (hd : d < 2147483648) :
    ((updateManualLock ((a + d) % two32)
        (setManualLock a (times.foldl (fun s t => setManualLock t s) s0))).manualLock = true
      ↔ d < 180000) ∧
    (setManualLock a (times.foldl (fun s t => setManualLock t s) s0)).manualLockUntilMs
      = (a + 180000) % two32 := by
  obtain ⟨hl, hu⟩ := setManualLock_foldl_lock times a s0
  refine ⟨?_, by rw [hu]; rfl⟩
  have hw := lock_window a d hd
  unfold updateManualLock
  rw [hu, hl]
  by_cases h : 180000 ≤ d
  · have h1 : castInt32 (sub32 ((a + d) % two32) (add32 a MANUAL_LOCK_MS)) ≥ 0 := hw.mpr h
    simp [h1]
    omega
  · have h1 : ¬ castInt32 (sub32 ((a + d) % two32) (add32 a MANUAL_LOCK_MS)) ≥ 0 :=
      fun hc => h (hw.mp hc)
    rw [if_neg (fun hc => h1 hc.2), hl]
    simp
    omega

/-- An activation 1000 ms before the rollover, preceded by two earlier ones:
the lock is still held 179999 ms later (after the rollover). -/
theorem manual_lock_expiry_exact_witness :
    (179999 < 2147483648) ∧
    (((updateManualLock ((4294966296 + 179999) % two32)
        (setManualLock 4294966296
          ([5, 4294000000].foldl (fun s t => setManualLock t s) State.init))).manualLock = true
      ↔ 179999 < 180000) ∧
    (setManualLock 4294966296
        ([5, 4294000000].foldl (fun s t => setManualLock t s) State.init)).manualLockUntilMs
      = (4294966296 + 180000) % two32) :=
  ⟨by decide, manual_lock_expiry_exact State.init [5, 4294000000] 4294966296 179999 (by decide)⟩

/-! ## Web handlers -/

theorem castUint16_of_valid (t : Int) (h : ¬ (t ≤ 0 ∨ t > 3000)) :
    ((castUint16 t : Nat) : Int) = t := by
  unfold castUint16
  omega

/-- C4.  `handlePlay` with `track = t` answers 400 if and only if `t <= 0` or
`t > 3000`.  A rejected request leaves every global unchanged and makes no
call besides the 400 response.  An accepted one runs `setManualLock`, leaves
`currentVolume` and the trigger memory alone, and sends the player exactly
`volume(currentVolume)` then `play(t)`, the `uint16_t` cast preserving `t`. -/
theorem handlePlay_validation (t : Int) (ms : Nat) (s : State) :
    ((∃ body, Effect.send 400 body ∈ (handlePlay (some t) ms s).2) ↔ (t ≤ 0 ∨ t > 3000)) ∧
    ((t ≤ 0 ∨ t > 3000) →
      (handlePlay (some t) ms s).1 = s ∧
      (handlePlay (some t) ms s).2 = [Effect.send 400 "Invalid track"]) ∧
    (¬ (t ≤ 0 ∨ t > 3000) →
      (handlePlay (some t) ms s).1 = setManualLock ms s ∧
      (handlePlay (some t) ms s).1.manualLock = true ∧
      (handlePlay (some t) ms s).1.currentVolume = s.currentVolume ∧
      triggerMemory (handlePlay (some t) ms s).1 = triggerMemory s ∧
      ((castUint16 t : Nat) : Int) = t ∧
      (handlePlay (some t) ms s).2
        = [Effect.dfVolume s.currentVolume, Effect.dfPlay (castUint16 t),
           Effect.send 200 "OK"]) := by
  by_cases h : t ≤ 0 ∨ t > 3000
  · simp [handlePlay, h]
  · have hc := castUint16_of_valid t h
    simp [handlePlay, h, playTrack, setManualLock, triggerMemory, hc]

/-- The two rejected tracks 0 and 3001 of the specification, and the accepted
track 3000. -/
theorem handlePlay_validation_witness :
    ((handlePlay (some 0) 1000 State.init).1 = State.init ∧
      (handlePlay (some 0) 1000 State.init).2 = [Effect.send 400 "Invalid track"]) ∧
    ((handlePlay (some 3001) 1000 State.init).1 = State.init ∧
      (handlePlay (some 3001) 1000 State.init).2 = [Effect.send 400 "Invalid track"]) ∧
    (handlePlay (some 3000) 1000 State.init).2
      = [Effect.dfVolume 20, Effect.dfPlay 3000, Effect.send 200 "OK"] :=
  ⟨(handlePlay_validation 0 1000 State.init).2.1 (by decide),
   (handlePlay_validation 3001 1000 State.init).2.1 (by decide),
   by
    have h := ((handlePlay_validation 3000 1000 State.init).2.2 (by decide)).2.2.2.2.2
    simpa [castUint16, State.init] using h⟩

/-- C5.  `handleVolume` with level `v` stores `min 30 (max 0 v)` in
`currentVolume`, changes no other global, and sends that same value to the
player; the stored value lies in `[0, 30]`, and the levels -5 and 99 give 0
and 30. -/
theorem handleVolume_clamps (v : Int) (s : State) :
    (handleVolume (some v) s).1 = { s with currentVolume := min 30 (max 0 v) } ∧
    (handleVolume (some v) s).1.currentVolume = min 30 (max 0 v) ∧
    (handleVolume (some v) s).2
      = [Effect.dfVolume (min 30 (max 0 v)), Effect.send 200 "OK"] ∧
    0 ≤ (handleVolume (some v) s).1.currentVolume ∧
    (handleVolume (some v) s).1.currentVolume ≤ 30 ∧
    (handleVolume (some (-5)) s).1.currentVolume = 0 ∧
    (handleVolume (some 99) s).1.currentVolume = 30 := by
  have hv : (if (if v < 0 then 0 else v) > 30 then 30 else (if v < 0 then 0 else v))
      = min 30 (max 0 v) := by
    split <;> split <;> omega
  simp only [handleVolume, hv]
  refine ⟨trivial, trivial, trivial, ?_, ?_, ?_, ?_⟩
  · omega
  · omega
  · decide
  · decide

/-! ## Network time sync -/

theorem rtcAfter_ntp_calls (clock : Nat) (updateOk : Bool) (tail : List Effect) :
    rtcAfter clock (([Effect.ntpBegin, Effect.ntpUpdate] ++
      (if ¬ updateOk = true then [Effect.ntpForceUpdate] else [])) ++ tail)
      = rtcAfter clock tail := by
  cases updateOk <;> simp [rtcAfter]

/-- C6.  `syncRtcFromNtp` returns true exactly when Wi-Fi is connected and the
fetched epoch (an `unsigned long`, 32 bits on this target) is at least
1700000000.  When Wi-Fi is down or the epoch is below the cutoff it returns
false, makes no `rtc.adjust` call and the RTC keeps its time; when it returns
true its only `rtc.adjust` call carries that epoch, which the RTC then holds. -/
theorem syncRtcFromNtp_rejects_and_sets (wifiConnected updateOk : Bool) (epoch clock : Nat)
    (hepoch : epoch < two32) :
    ((syncRtcFromNtp wifiConnected updateOk epoch).1 = true
      ↔ (wifiConnected = true ∧ 1700000000 ≤ epoch)) ∧
    ((wifiConnected = false ∨ epoch < 1700000000) →
      (syncRtcFromNtp wifiConnected updateOk epoch).1 = false ∧
      (∀ e, Effect.rtcAdjust e ∉ (syncRtcFromNtp wifiConnected updateOk epoch).2) ∧
      rtcAfter clock (syncRtcFromNtp wifiConnected updateOk epoch).2 = clock) ∧
    ((wifiConnected = true ∧ 1700000000 ≤ epoch) →
      (∀ e, Effect.rtcAdjust e ∈ (syncRtcFromNtp wifiConnected updateOk epoch).2 ↔ e = epoch) ∧
      rtcAfter clock (syncRtcFromNtp wifiConnected updateOk epoch).2 = epoch) := by
  have hc : castUint32 epoch = epoch := Nat.mod_eq_of_lt hepoch
  cases wifiConnected
  · simp [syncRtcFromNtp, rtcAfter]
  · by_cases hlt : epoch < 1700000000
    · have hnot : ¬ 1700000000 ≤ epoch := by omega
      have h0 := rtcAfter_ntp_calls clock updateOk []
      simp only [List.append_nil] at h0
      cases updateOk <;> simp [syncRtcFromNtp, NTP_EPOCH_CUTOFF, hlt, hnot, rtcAfter]
    · have hge : 1700000000 ≤ epoch := by omega
      have h1 := rtcAfter_ntp_calls clock updateOk [Effect.rtcAdjust epoch]
      cases updateOk <;>
        simp [syncRtcFromNtp, NTP_EPOCH_CUTOFF, hlt, hge, rtcAfter, hc, eq_comm]

/-- An epoch of 2023-11-14 (just below the cutoff) is refused with Wi-Fi up,
and the epoch 1767225600 is written to the RTC. -/
theorem syncRtcFromNtp_rejects_and_sets_witness :
    ((syncRtcFromNtp true false 1699999999).1 = false ∧
      (∀ e, Effect.rtcAdjust e ∉ (syncRtcFromNtp true false 1699999999).2) ∧
      rtcAfter 946684800 (syncRtcFromNtp true false 1699999999).2 = 946684800) ∧
    ((∀ e, Effect.rtcAdjust e ∈ (syncRtcFromNtp true true 1767225600).2 ↔ e = 1767225600) ∧
      rtcAfter 946684800 (syncRtcFromNtp true true 1767225600).2 = 1767225600) :=
  ⟨(syncRtcFromNtp_rejects_and_sets true false 1699999999 946684800 (by decide)).2.1
      (Or.inr (by decide)),
   (syncRtcFromNtp_rejects_and_sets true true 1767225600 946684800 (by decide)).2.2
      ⟨rfl, by decide⟩⟩

/-! ## The schedule scan -/

theorem playedTracks_append (xs ys : List Effect) :
    playedTracks (xs ++ ys) = playedTracks xs ++ playedTracks ys := by
  induction xs with
  | nil => rfl
  | cons x rest ih => cases x <;> simp [playedTracks, ih]

/-- The two `continue` guards of the `for` body are the matching test of the
specification. -/
theorem guards_iff_eventMatches (now : DateTime) (e : BellEvent) :
    (dowInRange (rtcDowToIsoMon1 now) e.dowFrom e.dowTo = true ∧
      now.hour = e.hour ∧ now.minute = e.minute) ↔ eventMatches now e = true := by
  simp only [dowInRange, rtcDowToIsoMon1, eventMatches, decide_eq_true_eq]
  constructor
  · rintro ⟨⟨h1, h2⟩, h3, h4⟩
    exact ⟨h1, h2, h3.symm, h4.symm⟩
  · rintro ⟨h1, h2, h3, h4⟩
    exact ⟨⟨h1, h2⟩, h3.symm, h4.symm⟩

theorem scheduleStep_no_match (now : DateTime) (e : BellEvent) (s : State)
    (h : eventMatches now e = false) :
    scheduleStep now (rtcDowToIsoMon1 now) e s = (s, []) := by
  have hg := guards_iff_eventMatches now e
  rw [h] at hg
  unfold scheduleStep
  by_cases h1 : dowInRange (rtcDowToIsoMon1 now) e.dowFrom e.dowTo = true
  · have h2 : now.hour ≠ e.hour ∨ now.minute ≠ e.minute := by
      by_contra hc
      push_neg at hc
      exact absurd (hg.mp ⟨h1, hc.1, hc.2⟩) (by simp)
    simp [h1, h2]
  · simp [h1]

theorem scheduleStep_skip (now : DateTime) (e : BellEvent) (s : State)
    (h : alreadyTriggered now e.track s) :
    scheduleStep now (rtcDowToIsoMon1 now) e s = (s, []) := by
  unfold scheduleStep
  rw [if_pos h]
  simp

theorem scheduleStep_fire (now : DateTime) (e : BellEvent) (s : State)
    (hm : eventMatches now e = true) (h : ¬ alreadyTriggered now e.track s) :
    scheduleStep now (rtcDowToIsoMon1 now) e s
      = (remember now e.track s, [Effect.dfVolume s.currentVolume, Effect.dfPlay e.track]) := by
  obtain ⟨h1, h2, h3⟩ := (guards_iff_eventMatches now e).mpr hm
  unfold scheduleStep
  rw [if_neg (by simp [h1]), if_neg (by simp [h2, h3]), if_neg h]
  rfl

/-- What one row contributes to the tracks played: its own track if it
matches and is not the remembered trigger, nothing otherwise. -/
theorem scheduleStep_played (now : DateTime) (e : BellEvent) (s : State) :
    playedTracks (scheduleStep now (rtcDowToIsoMon1 now) e s).2
      = if eventMatches now e = true ∧ ¬ alreadyTriggered now e.track s then [e.track] else [] := by
  by_cases hm : eventMatches now e = true
  · by_cases ht : alreadyTriggered now e.track s
    · rw [scheduleStep_skip now e s ht]
      simp [ht, playedTracks]
    · rw [scheduleStep_fire now e s hm ht]
      simp [hm, ht, playedTracks]
  · have hf : eventMatches now e = false := by simpa using hm
    rw [scheduleStep_no_match now e s hf]
    simp [hf, playedTracks]

theorem scheduleScan_sublist (now : DateTime) (table : List BellEvent) (s : State) :
    (playedTracks (scheduleScan now (rtcDowToIsoMon1 now) table s).2).Sublist
      ((table.filter (eventMatches now)).map BellEvent.track) := by
  induction table generalizing s with
  | nil => simp [scheduleScan, playedTracks]
  | cons e rest ih =>
    simp only [scheduleScan, playedTracks_append, scheduleStep_played]
    have hrest := ih (scheduleStep now (rtcDowToIsoMon1 now) e s).1
    by_cases hm : eventMatches now e = true
    · rw [List.filter_cons_of_pos hm, List.map_cons]
      by_cases ht : alreadyTriggered now e.track s
      · simp only [ht, not_true_eq_false, and_false, if_false, List.nil_append]
        exact List.Sublist.cons _ hrest
      · simp only [hm, ht, not_false_eq_true, and_self, if_true, List.singleton_append]
        exact List.Sublist.cons₂ _ hrest
    · rw [List.filter_cons_of_neg hm]
      simp only [hm, false_and, if_false, List.nil_append]
      exact hrest

/-- C9.  The tracks one scheduling tick plays form a subsequence, in table
order, of the tracks of the rows whose day range contains the ISO weekday of
`now` and whose hour and minute equal those of `now`.  The ISO weekday is the
RTC weekday with 0 (Sunday) read as 7 and every other value kept.  When
`now.second` is not 0 the tick makes no peripheral call at all and leaves the
state, hence the trigger memory, unchanged. -/
theorem only_matching_events_fire_in_order (table : List BellEvent) (now : DateTime)
    (s : State) :
    (playedTracks (scheduleTick now table s).2).Sublist
      ((table.filter (fun e =>
          decide (e.dowFrom ≤ rtcDowToIsoMon1 now ∧ rtcDowToIsoMon1 now ≤ e.dowTo ∧
            e.hour = now.hour ∧ e.minute = now.minute))).map BellEvent.track) ∧
    rtcDowToIsoMon1 now = (if now.dayOfTheWeek = 0 then 7 else now.dayOfTheWeek) ∧
    (now.second ≠ 0 →
      (scheduleTick now table s).2 = [] ∧
      playedTracks (scheduleTick now table s).2 = [] ∧
      (scheduleTick now table s).1 = s ∧
      triggerMemory (scheduleTick now table s).1 = triggerMemory s) := by
  refine ⟨?_, rfl, ?_⟩
  · have hsub := scheduleScan_sublist now table s
    have hfun : (fun e : BellEvent =>
        decide (e.dowFrom ≤ rtcDowToIsoMon1 now ∧ rtcDowToIsoMon1 now ≤ e.dowTo ∧
          e.hour = now.hour ∧ e.minute = now.minute)) = eventMatches now := by
      funext e
      rfl
    rw [hfun]
    unfold scheduleTick
    split
    · simp [playedTracks]
    · split
      · simp [playedTracks]
      · exact hsub
  · intro hsec
    unfold scheduleTick
    split
    · simp [playedTracks]
    · simp [hsec, playedTracks]

/-- With second 1 sampled, the tick on the built-in timetable does nothing. -/
theorem only_matching_events_fire_in_order_witness :
    (scheduleTick mondayNoonPlusOne scheduleList State.init).2 = [] ∧
    playedTracks (scheduleTick mondayNoonPlusOne scheduleList State.init).2 = [] ∧
    (scheduleTick mondayNoonPlusOne scheduleList State.init).1 = State.init ∧
    triggerMemory (scheduleTick mondayNoonPlusOne scheduleList State.init).1
      = triggerMemory State.init :=
  (only_matching_events_fire_in_order scheduleList mondayNoonPlusOne State.init).2.2
    (by decide)

theorem scheduleScan_no_match (now : DateTime) (table : List BellEvent) (s : State)
    (h : table.filter (eventMatches now) = []) :
    scheduleScan now (rtcDowToIsoMon1 now) table s = (s, []) := by
  induction table generalizing s with
  | nil => rfl
  | cons e rest ih =>
    rw [List.filter_eq_nil_iff] at h
    have he : eventMatches now e = false := by simpa using h e (List.mem_cons_self _ _)
    have hrest : rest.filter (eventMatches now) = [] := by
      rw [List.filter_eq_nil_iff]
      exact fun x hx => h x (List.mem_cons_of_mem _ hx)
    simp [scheduleScan, scheduleStep_no_match now e s he, ih s hrest]

/-- A scan in which every matching row carries the remembered trigger plays
nothing and changes nothing. -/
theorem scheduleScan_all_remembered (now : DateTime) (table : List BellEvent) (s : State)
    (h : ∀ x ∈ table, eventMatches now x = true → alreadyTriggered now x.track s) :
    scheduleScan now (rtcDowToIsoMon1 now) table s = (s, []) := by
  induction table generalizing s with
  | nil => rfl
  | cons e rest ih =>
    have hstep : scheduleStep now (rtcDowToIsoMon1 now) e s = (s, []) := by
      by_cases hm : eventMatches now e = true
      · exact scheduleStep_skip now e s (h e (List.mem_cons_self _ _) hm)
      · exact scheduleStep_no_match now e s (by simpa using hm)
    simp [scheduleScan, hstep, ih s (fun x hx => h x (List.mem_cons_of_mem _ hx))]

theorem alreadyTriggered_remember (now : DateTime) (track : Nat) (s : State) :
    alreadyTriggered now track (remember now track s) := by
  simp [alreadyTriggered, remember]

theorem memoryInMinute_of_alreadyTriggered (now : DateTime) (track : Nat) (s : State)
    (h : alreadyTriggered now track s) : memoryInMinute now s := by
  obtain ⟨h1, h2, h3, h4, h5, _⟩ := h
  exact ⟨h1.symm, h2.symm, h3.symm, h4.symm, h5.symm⟩

theorem not_memoryInMinute_of_none (now : DateTime) (s : State) (h : memoryIsNone s) :
    ¬ memoryInMinute now s := by
  intro hm
  have hy : s.lastTriggeredYear = -1 := by
    have := congrArg Prod.fst h
    simpa [triggerMemory] using this
  have h1 := hm.1
  omega

/-- C8.  With the manual lock off and `now.second = 0`, if the trigger memory
is the initial "none" value or records another minute than `now`, the tick
plays the track of the first table row matching `now`, whatever track the
memory holds (so a track fired in an earlier minute is not blocked). -/
theorem new_minute_not_suppressed (table : List BellEvent) (now : DateTime) (e : BellEvent)
    (s : State) (hsec : now.second = 0) (hlock : s.manualLock = false)
    (hmem : memoryIsNone s ∨ ¬ memoryInMinute now s)
    (hfirst : table.find? (eventMatches now) = some e) :
    (playedTracks (scheduleTick now table s).2).head? = some e.track := by
  have hfresh : ∀ t, ¬ alreadyTriggered now t s := by
    intro t ht
    have hin := memoryInMinute_of_alreadyTriggered now t s ht
    rcases hmem with hnone | hother
    · exact not_memoryInMinute_of_none now s hnone hin
    · exact hother hin
  have hscan : (playedTracks (scheduleScan now (rtcDowToIsoMon1 now) table s).2).head?
      = some e.track := by
    induction table with
    | nil => simp at hfirst
    | cons x rest ih =>
      by_cases hx : eventMatches now x = true
      · have hxe : x = e := by simpa [List.find?, hx] using hfirst
        subst hxe
        simp [scheduleScan, scheduleStep_fire now x s hx (hfresh x.track), playedTracks]
      · have hxf : eventMatches now x = false := by simpa using hx
        have hrest : rest.find? (eventMatches now) = some e := by
          simpa [List.find?, hxf] using hfirst
        simpa [scheduleScan, scheduleStep_no_match now x s hxf] using ih hrest
  unfold scheduleTick
  simp [hlock, hsec, hscan]

/-- Track 1 was fired at 08:30; at 09:20 the third row of the built-in
timetable, again track 1, is played. -/
theorem new_minute_not_suppressed_witness :
    (playedTracks (scheduleTick mondayThirdBell scheduleList
        (remember mondayFirstBell 1 State.init)).2).head? = some 1 :=
  new_minute_not_suppressed scheduleList mondayThirdBell ⟨1, 5, 9, 20, 1, "Ders"⟩
    (remember mondayFirstBell 1 State.init) (by decide) (by decide)
    (Or.inr (by decide)) (by decide)

/-- A scan of a table with exactly one matching row `e`, not yet the
remembered trigger, plays `e.track` once and remembers it. -/
theorem scheduleScan_single (now : DateTime) (table : List BellEvent) (e : BellEvent)
    (s : State) (hone : table.filter (eventMatches now) = [e])
    (hmem : ¬ alreadyTriggered now e.track s) :
    scheduleScan now (rtcDowToIsoMon1 now) table s
      = (remember now e.track s, [Effect.dfVolume s.currentVolume, Effect.dfPlay e.track]) := by
  induction table with
  | nil => simp at hone
  | cons x rest ih =>
    by_cases hx : eventMatches now x = true
    · rw [List.filter_cons_of_pos hx] at hone
      obtain ⟨hxe, hrest⟩ := List.cons.inj hone
      subst hxe
      simp [scheduleScan, scheduleStep_fire now x s hx hmem,
        scheduleScan_no_match now rest _ hrest]
    · rw [List.filter_cons_of_neg hx] at hone
      simp [scheduleScan, scheduleStep_no_match now x s (by simpa using hx), ih hone]

theorem scheduleTick_single (now : DateTime) (table : List BellEvent) (e : BellEvent)
    (s : State) (hsec : now.second = 0) (hone : table.filter (eventMatches now) = [e])
    (hlock : s.manualLock = false) (hmem : ¬ alreadyTriggered now e.track s) :
    scheduleTick now table s
      = (remember now e.track s, [Effect.dfVolume s.currentVolume, Effect.dfPlay e.track]) := by
  unfold scheduleTick
  rw [if_neg (by simp [hlock])]
  simp only [hsec, ne_eq, not_true_eq_false, if_false]
  exact scheduleScan_single now table e s hone hmem

theorem scheduleTick_all_remembered (now : DateTime) (table : List BellEvent) (s : State)
    (h : ∀ x ∈ table, eventMatches now x = true → alreadyTriggered now x.track s) :
    scheduleTick now table s = (s, []) := by
  unfold scheduleTick
  split
  · rfl
  · split
    · rfl
    · exact scheduleScan_all_remembered now table s h

theorem scheduleTicks_quiet (now : DateTime) (table : List BellEvent) (n : Nat) (s : State)
    (hquiet : scheduleTick now table s = (s, [])) :
    (scheduleTicks now table n s).2.map playedTracks = List.replicate n [] := by
  induction n with
  | zero => rfl
  | succ k ih =>
    simp only [scheduleTicks, hquiet, List.map_cons, ih, playedTracks]
    rfl

/-- C2.  If `now.second = 0`, exactly one table row `e` matches `now`, the
manual lock is off and the trigger memory is not already the tuple of `now`
and `e.track`, then `n >= 1` consecutive scheduling ticks sampling `now` play
`e.track` on the first tick and nothing on the other `n - 1`: one play in
total. -/
theorem single_match_fires_once (table : List BellEvent) (now : DateTime) (e : BellEvent)
    (n : Nat) (s : State) (hsec : now.second = 0)
    (hone : table.filter (eventMatches now) = [e]) (hn : 1 ≤ n)
    (hlock : s.manualLock = false) (hmem : ¬ alreadyTriggered now e.track s) :
    (scheduleTicks now table n s).2.map playedTracks
        = [e.track] :: List.replicate (n - 1) [] ∧
    ((scheduleTicks now table n s).2.map playedTracks).flatten = [e.track] ∧
    (scheduleTicks now table n s).1.manualLock = false := by
  obtain ⟨k, rfl⟩ : ∃ k, n = k + 1 := ⟨n - 1, by omega⟩
  have hfirst := scheduleTick_single now table e s hsec hone hlock hmem
  have hmatch : ∀ x ∈ table, eventMatches now x = true →
      alreadyTriggered now x.track (remember now e.track s) := by
    intro x hx hxm
    have hxin : x ∈ table.filter (eventMatches now) := List.mem_filter.mpr ⟨hx, hxm⟩
    rw [hone, List.mem_singleton] at hxin
    rw [hxin]
    exact alreadyTriggered_remember now e.track s
  have hquiet := scheduleTick_all_remembered now table (remember now e.track s) hmatch
  have hrest := scheduleTicks_quiet now table k _ hquiet
  have hstate : ∀ m, (scheduleTicks now table m (remember now e.track s)).1
      = remember now e.track s := by
    intro m
    induction m with
    | zero => rfl
    | succ j ih => simp only [scheduleTicks, hquiet, ih]
  have hlist : (scheduleTicks now table (k + 1) s).2.map playedTracks
      = [e.track] :: List.replicate k [] := by
    simp only [scheduleTicks, hfirst, List.map_cons, hrest, playedTracks]
  refine ⟨by simpa using hlist, ?_, ?_⟩
  · rw [hlist]
    simp
  · simp only [scheduleTicks, hfirst, hstate]
    simpa [remember] using hlock

/-- Four ticks at Monday 12:00:00 on the built-in timetable from the initial
state: track 3 on the first tick, nothing afterwards. -/
theorem single_match_fires_once_witness :
    (scheduleTicks mondayNoon scheduleList 4 State.init).2.map playedTracks
        = [3] :: List.replicate (4 - 1) [] ∧
    ((scheduleTicks mondayNoon scheduleList 4 State.init).2.map playedTracks).flatten = [3] ∧
    (scheduleTicks mondayNoon scheduleList 4 State.init).1.manualLock = false :=
  single_match_fires_once scheduleList mondayNoon ⟨1, 5, 12, 0, 3, "Istiklal Marsi"⟩ 4
    State.init (by decide) (by decide) (by decide) (by decide) (by decide)

/-! ## The manual lock inside `loop()` -/

/-- The manual lock was last set at time `a`: the state `setManualLock`
leaves behind, as far as the lock is concerned. -/
theorem setManualLock_locked (a : Nat) (s : State) :
    (setManualLock a s).manualLock = true ∧
    (setManualLock a s).manualLockUntilMs = add32 a MANUAL_LOCK_MS := by
  simp [setManualLock]

theorem scheduleTick_locked (now : DateTime) (table : List BellEvent) (s : State)
    (h : s.manualLock = true) : scheduleTick now table s = (s, []) := by
  unfold scheduleTick
  rw [if_pos h]

/-- Serving anything but an accepted `/play` leaves the lock, the trigger
memory and the tick stamp alone and starts no track. -/
theorem handleClient_no_manual_play (req : Option Request) (ms : Nat) (s : State)
    (h : isManualPlay req = false) :
    (handleClient req ms s).1.manualLock = s.manualLock ∧
    (handleClient req ms s).1.manualLockUntilMs = s.manualLockUntilMs ∧
    (handleClient req ms s).1.lastTickMs = s.lastTickMs ∧
    triggerMemory (handleClient req ms s).1 = triggerMemory s ∧
    playedTracks (handleClient req ms s).2 = [] := by
  match req with
  | none => simp [handleClient, playedTracks]
  | some Request.root => simp [handleClient, playedTracks]
  | some Request.status => simp [handleClient, playedTracks]
  | some Request.schedule => simp [handleClient, playedTracks]
  | some Request.stop => simp [handleClient, handleStop, stopPlayback, playedTracks]
  | some (Request.volume none) => simp [handleClient, handleVolume, playedTracks]
  | some (Request.volume (some v)) =>
    simp [handleClient, handleVolume, playedTracks, triggerMemory]
  | some (Request.play none) => simp [handleClient, handlePlay, playedTracks]
  | some (Request.play (some t)) =>
    have ht : t ≤ 0 ∨ t > 3000 := by
      simp only [isManualPlay, decide_eq_false_iff_not, not_not] at h
      exact h
    simp [handleClient, handlePlay, ht, playedTracks]

/-- One iteration of `loop()` inside the lock window: if the lock was last set
at time `a`, the iteration serves no accepted `/play`, and its
`updateManualLock` reads `a + d` (mod 2^32) with `d < 180000`, then the lock
and its deadline survive, the trigger memory is unchanged and the only
peripheral calls are those of the request handler. -/
theorem loop_while_locked (table : List BellEvent) (a d : Nat) (inp : LoopInput) (s : State)
    (hl : s.manualLock = true) (hu : s.manualLockUntilMs = add32 a MANUAL_LOCK_MS)
    (hreq : isManualPlay inp.request = false) (hd : d < 180000)
    (hms : inp.msLock = (a + d) % two32) :
    (loop inp table s).1.manualLock = true ∧
    (loop inp table s).1.manualLockUntilMs = add32 a MANUAL_LOCK_MS ∧
    triggerMemory (loop inp table s).1 = triggerMemory s ∧
    (loop inp table s).2 = (handleClient inp.request inp.msClient s).2 := by
  obtain ⟨c1, c2, _, c4, _⟩ := handleClient_no_manual_play inp.request inp.msClient s hreq
  have hw : ¬ castInt32 (sub32 ((a + d) % two32) (add32 a MANUAL_LOCK_MS)) ≥ 0 := by
    rw [lock_window a d (by omega)]
    omega
  have hupd : updateManualLock inp.msLock (handleClient inp.request inp.msClient s).1
      = (handleClient inp.request inp.msClient s).1 := by
    unfold updateManualLock
    rw [c2, hu, hms, if_neg (fun hc => hw hc.2)]
  unfold loop
  simp only [hupd]
  split
  · exact ⟨by rw [c1, hl], by rw [c2, hu], c4, rfl⟩
  · have hlock3 : ({ (handleClient inp.request inp.msClient s).1 with
        lastTickMs := inp.msStamp } : State).manualLock = true := by rw [← hl, ← c1]
    rw [scheduleTick_locked inp.now table _ hlock3]
    exact ⟨hlock3, c2.trans hu, c4, List.append_nil _⟩

theorem runLoops_while_locked (table : List BellEvent) (a : Nat) (mids : List LoopInput)
    (s : State) (hl : s.manualLock = true)
    (hu : s.manualLockUntilMs = add32 a MANUAL_LOCK_MS)
    (hmids : ∀ j ∈ mids, isManualPlay j.request = false ∧
      ∃ dj, dj < 180000 ∧ j.msLock = (a + dj) % two32) :
    (runLoops table mids s).1.manualLock = true ∧
    (runLoops table mids s).1.manualLockUntilMs = add32 a MANUAL_LOCK_MS ∧
    triggerMemory (runLoops table mids s).1 = triggerMemory s := by
  induction mids generalizing s with
  | nil => exact ⟨hl, hu, rfl⟩
  | cons j rest ih =>
    obtain ⟨hj, dj, hdj, hjms⟩ := hmids j (List.mem_cons_self _ _)
    obtain ⟨k1, k2, k3, _⟩ := loop_while_locked table a dj j s hl hu hj hdj hjms
    obtain ⟨r1, r2, r3⟩ := ih (loop j table s).1 k1 k2
      (fun x hx => hmids x (List.mem_cons_of_mem _ hx))
    exact ⟨r1, r2, r3.trans k3⟩

/-- C3.  Let `setManualLock` run at time `a` (from any state), followed by any
iterations of `loop()` that serve no accepted `/play` and run within the
window.  Then an iteration of `loop()` whose `updateManualLock` reads
`a + d` modulo `2^32`, `d < 180000`, and which serves no accepted `/play`
starts no track, makes no peripheral call beyond those of the request it
serves, keeps the lock set and leaves the trigger memory unchanged, whatever
the table and the sampled time. -/
theorem manual_lock_suppresses_schedule (table : List BellEvent) (s0 : State) (a d : Nat)
    (mids : List LoopInput) (inp : LoopInput)
    (hmids : ∀ j ∈ mids, isManualPlay j.request = false ∧
      ∃ dj, dj < 180000 ∧ j.msLock = (a + dj) % two32)
    (hreq : isManualPlay inp.request = false) (hd : d < 180000)
    (hms : inp.msLock = (a + d) % two32) :
    playedTracks (loop inp table (runLoops table mids (setManualLock a s0)).1).2 = [] ∧
    (loop inp table (runLoops table mids (setManualLock a s0)).1).2
      = (handleClient inp.request inp.msClient
          (runLoops table mids (setManualLock a s0)).1).2 ∧
    triggerMemory (loop inp table (runLoops table mids (setManualLock a s0)).1).1
      = triggerMemory (runLoops table mids (setManualLock a s0)).1 ∧
    triggerMemory (loop inp table (runLoops table mids (setManualLock a s0)).1).1
      = triggerMemory s0 ∧
    (loop inp table (runLoops table mids (setManualLock a s0)).1).1.manualLock = true := by
  obtain ⟨i1, i2⟩ := setManualLock_locked a s0
  obtain ⟨r1, r2, r3⟩ := runLoops_while_locked table a mids (setManualLock a s0) i1 i2 hmids
  obtain ⟨k1, _, k3, k4⟩ := loop_while_locked table a d inp _ r1 r2 hreq hd hms
  have hplay := (handleClient_no_manual_play inp.request inp.msClient
    (runLoops table mids (setManualLock a s0)).1 hreq).2.2.2.2
  refine ⟨by rw [k4]; exact hplay, k4, k3, ?_, k1⟩
  rw [k3, r3]
  rfl

/-- The lock is set 100000 ms before the `millis()` rollover; one idle
iteration later, an iteration 179999 ms after the activation samples Monday
12:00:00, which matches the fourth row of the built-in timetable, and plays
nothing. -/
theorem manual_lock_suppresses_schedule_witness :
    playedTracks (loop (quietLoop 79999 mondayNoon) scheduleList
        (runLoops scheduleList [quietLoop 4294900000 mondayNoon]
          (setManualLock 4294867296 State.init)).1).2 = [] ∧
    (loop (quietLoop 79999 mondayNoon) scheduleList
        (runLoops scheduleList [quietLoop 4294900000 mondayNoon]
          (setManualLock 4294867296 State.init)).1).2
      = (handleClient (quietLoop 79999 mondayNoon).request (quietLoop 79999 mondayNoon).msClient
          (runLoops scheduleList [quietLoop 4294900000 mondayNoon]
            (setManualLock 4294867296 State.init)).1).2 ∧
    triggerMemory (loop (quietLoop 79999 mondayNoon) scheduleList
        (runLoops scheduleList [quietLoop 4294900000 mondayNoon]
          (setManualLock 4294867296 State.init)).1).1
      = triggerMemory (runLoops scheduleList [quietLoop 4294900000 mondayNoon]
          (setManualLock 4294867296 State.init)).1 ∧
    triggerMemory (loop (quietLoop 79999 mondayNoon) scheduleList
        (runLoops scheduleList [quietLoop 4294900000 mondayNoon]
          (setManualLock 4294867296 State.init)).1).1
      = triggerMemory State.init ∧
    (loop (quietLoop 79999 mondayNoon) scheduleList
        (runLoops scheduleList [quietLoop 4294900000 mondayNoon]
          (setManualLock 4294867296 State.init)).1).1.manualLock = true :=
  manual_lock_suppresses_schedule scheduleList State.init 4294867296 179999
    [quietLoop 4294900000 mondayNoon] (quietLoop 79999 mondayNoon)
    (by
      intro j hj
      rw [List.mem_singleton] at hj
      subst hj
      exact ⟨rfl, 32704, by decide, by decide⟩)
    rfl (by decide) (by decide)

/-- An iteration of `loop()` with no pending request, the lock off and the
250 ms gate open is one scheduling tick. -/
theorem loop_idle_gate_open (inp : LoopInput) (table : List BellEvent) (s : State)
    (hreq : inp.request = none) (hlock : s.manualLock = false)
    (hgate : ¬ sub32 inp.msGate s.lastTickMs < 250) :
    loop inp table s = scheduleTick inp.now table { s with lastTickMs := inp.msStamp } := by
  have hupd : updateManualLock inp.msLock s = s := by
    unfold updateManualLock
    simp [hlock]
  unfold loop
  simp only [hreq, handleClient, hupd, if_neg hgate, List.nil_append]

theorem alreadyTriggered_congr (now : DateTime) (t : Nat) (s1 s2 : State)
    (h : triggerMemory s1 = triggerMemory s2) :
    alreadyTriggered now t s1 ↔ alreadyTriggered now t s2 := by
  simp only [triggerMemory, Prod.mk.injEq] at h
  obtain ⟨h1, h2, h3, h4, h5, h6⟩ := h
  simp only [alreadyTriggered, h1, h2, h3, h4, h5, h6]

/-- What an iteration of `loop()` that serves no accepted `/play` does while
the lock is off: the request handler runs, then either the gate is closed or
one scheduling tick runs on the handler's state with the tick stamp renewed. -/
theorem loop_unlocked (inp : LoopInput) (table : List BellEvent) (s : State)
    (hreq : isManualPlay inp.request = false) (hlock : s.manualLock = false) :
    loop inp table s
      = if sub32 inp.msGate s.lastTickMs < 250 then handleClient inp.request inp.msClient s
        else
          ((scheduleTick inp.now table
              { (handleClient inp.request inp.msClient s).1 with lastTickMs := inp.msStamp }).1,
           (handleClient inp.request inp.msClient s).2 ++
            (scheduleTick inp.now table
              { (handleClient inp.request inp.msClient s).1 with lastTickMs := inp.msStamp }).2) := by
  obtain ⟨c1, _, c3, _, _⟩ := handleClient_no_manual_play inp.request inp.msClient s hreq
  have hupd : updateManualLock inp.msLock (handleClient inp.request inp.msClient s).1
      = (handleClient inp.request inp.msClient s).1 := by
    unfold updateManualLock
    simp [c1, hlock]
  unfold loop
  simp only [hupd, c3]

/-- The loop-level form of the exactly-once property: iterations of `loop()`
that all sample `now` and serve no accepted `/play`, the first of them passing
the 250 ms gate, play the single matching track in the first iteration and
nothing afterwards, whether or not the later ones pass the gate. -/
theorem loop_single_match_once (table : List BellEvent) (now : DateTime) (e : BellEvent)
    (s : State) (first : LoopInput) (rest : List LoopInput) (hsec : now.second = 0)
    (hone : table.filter (eventMatches now) = [e]) (hlock : s.manualLock = false)
    (hmem : ¬ alreadyTriggered now e.track s)
    (hall : ∀ j ∈ first :: rest, j.now = now ∧ isManualPlay j.request = false)
    (hgate : ¬ sub32 first.msGate s.lastTickMs < 250) :
    (runLoops table (first :: rest) s).2.map playedTracks
      = [e.track] :: List.replicate rest.length [] := by
  have hmatch : ∀ (s1 : State), alreadyTriggered now e.track s1 →
      ∀ x ∈ table, eventMatches now x = true → alreadyTriggered now x.track s1 := by
    intro s1 h1 x hx hxm
    have hxin : x ∈ table.filter (eventMatches now) := List.mem_filter.mpr ⟨hx, hxm⟩
    rw [hone, List.mem_singleton] at hxin
    rw [hxin]
    exact h1
  -- an iteration taken once the trigger is remembered plays nothing
  have hquiet : ∀ (j : LoopInput) (s1 : State), j.now = now →
      isManualPlay j.request = false → s1.manualLock = false →
      alreadyTriggered now e.track s1 →
      playedTracks (loop j table s1).2 = [] ∧ (loop j table s1).1.manualLock = false ∧
      alreadyTriggered now e.track (loop j table s1).1 := by
    intro j s1 hj hjr hl ha
    obtain ⟨c1, _, _, c4, c5⟩ := handleClient_no_manual_play j.request j.msClient s1 hjr
    have ha1 : alreadyTriggered now e.track (handleClient j.request j.msClient s1).1 :=
      (alreadyTriggered_congr now e.track _ s1 c4).mpr ha
    rw [loop_unlocked j table s1 hjr hl]
    split
    · exact ⟨c5, c1.trans hl, ha1⟩
    · have hl3 : ({ (handleClient j.request j.msClient s1).1 with
          lastTickMs := j.msStamp } : State).manualLock = false := c1.trans hl
      have ha3 : alreadyTriggered now e.track ({ (handleClient j.request j.msClient s1).1 with
          lastTickMs := j.msStamp } : State) := ha1
      have htick : scheduleTick j.now table ({ (handleClient j.request j.msClient s1).1 with
          lastTickMs := j.msStamp } : State)
          = (({ (handleClient j.request j.msClient s1).1 with
              lastTickMs := j.msStamp } : State), []) := by
        rw [hj]
        exact scheduleTick_all_remembered now table _ (hmatch _ ha3)
      rw [htick]
      exact ⟨by simpa using c5, hl3, ha3⟩
  have hrest : ∀ (js : List LoopInput) (s1 : State),
      (∀ j ∈ js, j.now = now ∧ isManualPlay j.request = false) → s1.manualLock = false →
      alreadyTriggered now e.track s1 →
      (runLoops table js s1).2.map playedTracks = List.replicate js.length [] := by
    intro js
    induction js with
    | nil => intro s1 _ _ _; rfl
    | cons j tail ih =>
      intro s1 hjs hl ha
      obtain ⟨hj, hjr⟩ := hjs j (List.mem_cons_self _ _)
      obtain ⟨q1, q2, q3⟩ := hquiet j s1 hj hjr hl ha
      simp only [runLoops, List.map_cons, q1, List.length_cons, List.replicate_succ,
        ih (loop j table s1).1 (fun x hx => hjs x (List.mem_cons_of_mem _ hx)) q2 q3]
  obtain ⟨hf, hfr⟩ := hall first (List.mem_cons_self _ _)
  obtain ⟨c1, _, _, c4, c5⟩ := handleClient_no_manual_play first.request first.msClient s hfr
  have hl3 : ({ (handleClient first.request first.msClient s).1 with
      lastTickMs := first.msStamp } : State).manualLock = false := c1.trans hlock
  have hm3 : ¬ alreadyTriggered now e.track ({ (handleClient first.request first.msClient s).1
      with lastTickMs := first.msStamp } : State) :=
    fun hc => hmem ((alreadyTriggered_congr now e.track _ s c4).mp hc)
  have htick : scheduleTick first.now table ({ (handleClient first.request first.msClient s).1
      with lastTickMs := first.msStamp } : State)
      = (remember now e.track ({ (handleClient first.request first.msClient s).1
            with lastTickMs := first.msStamp } : State),
         [Effect.dfVolume (handleClient first.request first.msClient s).1.currentVolume,
          Effect.dfPlay e.track]) := by
    rw [hf]
    exact scheduleTick_single now table e _ hsec hone hl3 hm3
  have hloop := loop_unlocked first table s hfr hlock
  rw [if_neg hgate, htick] at hloop
  have hafter := hrest rest (loop first table s).1
    (fun x hx => hall x (List.mem_cons_of_mem _ hx))
    (by rw [hloop]; exact hl3)
    (by rw [hloop]; exact alreadyTriggered_remember now e.track _)
  simp only [runLoops, List.map_cons, hafter]
  rw [hloop]
  simp [playedTracks_append, c5, playedTracks]

/-! ## The single-slot trigger memory -/

theorem scheduleScan_append (now : DateTime) (isoDow : Nat) (xs ys : List BellEvent)
    (s : State) :
    scheduleScan now isoDow (xs ++ ys) s
      = ((scheduleScan now isoDow ys (scheduleScan now isoDow xs s).1).1,
         (scheduleScan now isoDow xs s).2 ++
           (scheduleScan now isoDow ys (scheduleScan now isoDow xs s).1).2) := by
  induction xs generalizing s with
  | nil => simp [scheduleScan]
  | cons x rest ih => simp [scheduleScan, ih, List.append_assoc]

/-- Two rows of one minute with different tracks: every tick taken while the
memory does not hold the first track plays both rows again, and leaves the
memory holding the second track. -/
theorem two_track_tick (now : DateTime) (e3 e4 : BellEvent) (s : State)
    (hsec : now.second = 0) (hlock : s.manualLock = false)
    (h3 : eventMatches now e3 = true) (h4 : eventMatches now e4 = true)
    (hne : e3.track ≠ e4.track) (hmem : ¬ alreadyTriggered now e3.track s) :
    playedTracks (scheduleTick now [e3, e4] s).2 = [e3.track, e4.track] ∧
    (scheduleTick now [e3, e4] s).1.manualLock = false ∧
    ¬ alreadyTriggered now e3.track (scheduleTick now [e3, e4] s).1 := by
  have hmem4 : ¬ alreadyTriggered now e4.track (remember now e3.track s) := by
    intro hc
    exact hne hc.2.2.2.2.2.symm
  have htick : scheduleTick now [e3, e4] s
      = (remember now e4.track (remember now e3.track s),
         [Effect.dfVolume s.currentVolume, Effect.dfPlay e3.track,
          Effect.dfVolume s.currentVolume, Effect.dfPlay e4.track]) := by
    have hvol : (remember now e3.track s).currentVolume = s.currentVolume := rfl
    unfold scheduleTick
    rw [if_neg (by simp [hlock])]
    simp only [hsec, ne_eq, not_true_eq_false, if_false, scheduleScan]
    rw [scheduleStep_fire now e3 s h3 hmem]
    simp only
    rw [scheduleStep_fire now e4 _ h4 hmem4, hvol]
    rfl
  rw [htick]
  refine ⟨by simp [playedTracks], by simpa [remember] using hlock, ?_⟩
  intro hc
  exact hne hc.2.2.2.2.2

/-- Two identical rows with only rows of the same track (or non-matching rows)
between them: the second one is skipped. -/
theorem duplicate_row_skipped (now : DateTime) (e : BellEvent) (before mid : List BellEvent)
    (s : State) (hm : eventMatches now e = true)
    (hmid : ∀ x ∈ mid, eventMatches now x = true → x.track = e.track) :
    scheduleStep now (rtcDowToIsoMon1 now) e
        (scheduleScan now (rtcDowToIsoMon1 now) (before ++ e :: mid) s).1
      = ((scheduleScan now (rtcDowToIsoMon1 now) (before ++ e :: mid) s).1, []) := by
  apply scheduleStep_skip
  rw [scheduleScan_append]
  generalize (scheduleScan now (rtcDowToIsoMon1 now) before s).1 = s1
  have hfirst : alreadyTriggered now e.track (scheduleStep now (rtcDowToIsoMon1 now) e s1).1 := by
    by_cases ht : alreadyTriggered now e.track s1
    · rw [scheduleStep_skip now e s1 ht]
      exact ht
    · rw [scheduleStep_fire now e s1 hm ht]
      exact alreadyTriggered_remember now e.track s1
  simp only [scheduleScan]
  rw [scheduleScan_all_remembered now mid _ (fun x hx hxm => by rw [hmid x hx hxm]; exact hfirst)]
  exact hfirst

/-- C1, evaluated.  On a table with two rows for Monday 12:00, tracks 3 and 4,
three ticks sampling Monday 12:00:00 from the initial state play both tracks
on every tick: six plays, not two.  The same happens through `loop()` itself,
with iterations 250 ms apart inside that second. -/
theorem two_track_minute_replays :
    (scheduleTicks mondayNoon twoTrackTable 3 State.init).2.map playedTracks
      = [[3, 4], [3, 4], [3, 4]] ∧
    (runLoops twoTrackTable
        [quietLoop 1000 mondayNoon, quietLoop 1250 mondayNoon, quietLoop 1500 mondayNoon]
        State.init).2.map playedTracks
      = [[3, 4], [3, 4], [3, 4]] := by
  constructor <;> decide

/-- C7, evaluated.  On a table holding the row for track 1 twice with a row
for track 2 of the same minute in between, one tick at that minute from the
initial state plays 1, 2, 1: the second of the identical rows is played,
because the memory then holds track 2. -/
theorem duplicate_row_replayed :
    playedTracks (scheduleTick mondayNoon duplicateRowTable State.init).2 = [1, 2, 1] ∧
    (scheduleStep mondayNoon (rtcDowToIsoMon1 mondayNoon) ⟨1, 5, 12, 0, 1, "Ders"⟩
        (scheduleScan mondayNoon (rtcDowToIsoMon1 mondayNoon)
          [⟨1, 5, 12, 0, 1, "Ders"⟩, ⟨1, 5, 12, 0, 2, "Teneffus"⟩] State.init).1).2
      = [Effect.dfVolume 20, Effect.dfPlay 1] := by
  constructor <;> decide

end BellController
